import Mathlib

/-!
Verification development for the signature-engine backend
(`src/server.js`, `src/models/Audit.js`).

The server logic is embedded shallowly:

* JS numbers are modelled as exact rationals (`ℚ`);
* the pdf-lib / crypto / Buffer collaborators (`PDFDocument.load`,
  `save`, `embedJpg`, `embedPng`, base64 decoding, `sha256`,
  `Date.now`) are modelled as an explicit record of functions
  (`Collab`), since the spec treats them as external collaborators;
* the mutable filesystem (`uploads/original`, `uploads/signed`) and
  the Mongo `Audit` collection are modelled as an explicit
  `ServerState` threaded through the handlers;
* a thrown JS exception caught by the handler's `catch` is modelled
  as an `Option`/error result.

Every definition is translated from `src/server.js` (the field loop of
the `/finalize-pdf` handler, the `/upload-pdf` handler) and
`src/models/Audit.js` (the audit schema).
-/

namespace SigEngine

/-- A field descriptor from the finalize request body
(`{page, type, value, xRatio, yRatio, wRatio, hRatio}`). -/
structure Field where
  page : Nat
  type : String
  value : String
  xRatio : ℚ
  yRatio : ℚ
  wRatio : ℚ
  hRatio : ℚ
  deriving DecidableEq

/-- A rectangle in page-space points. -/
structure Rect where
  x : ℚ
  y : ℚ
  w : ℚ
  h : ℚ
  deriving DecidableEq

/-- Geometry resolution, exactly lines 114–117 of `src/server.js`:
`x = field.xRatio * width`, `y = height - field.yRatio * height -
field.hRatio * height`, `w = field.wRatio * width`,
`h = field.hRatio * height`. It is computed once per field before any
type branch, hence identical for every field type. -/
def resolveRect (f : Field) (width height : ℚ) : Rect :=
  { x := f.xRatio * width
    y := height - f.yRatio * height - f.hRatio * height
    w := f.wRatio * width
    h := f.hRatio * height }

/-- An embedded raster image as returned by pdf-lib's
`embedJpg`/`embedPng` (only its `width`/`height` are read by the
handler). -/
structure Img where
  width : ℚ
  height : ℚ
  deriving DecidableEq

/-- A drawing instruction added to a page: `page.drawText(value, {x, y,
size, color: rgb(r, g, b)})` or `page.drawImage(img, {x, y, width,
height})`. -/
inductive DrawOp where
  | drawText (text : String) (x y size r g b : ℚ)
  | drawImage (img : Img) (x y width height : ℚ)
  deriving DecidableEq

/-- A pdf-lib page: fixed dimensions (`page.getSize()`) plus the list of
drawing instructions accumulated on it (drawing is purely additive). -/
structure Page where
  width : ℚ
  height : ℚ
  ops : List DrawOp
  deriving DecidableEq

/-- JS `\w` character class: `[A-Za-z0-9_]` (the regex in
`src/server.js:132` is ASCII-only). -/
def isWordChar (ch : Char) : Bool :=
  ch.isAlpha || ch.isDigit || ch = '_'

/-- Drop the exact character sequence `p` from the front of `l`;
`none` when `l` does not start with `p`. -/
def dropPre : List Char → List Char → Option (List Char)
  | [], l => some l
  | _ :: _, [] => none
  | p :: ps, a :: as => if a = p then dropPre ps as else none

/-- Characterization helper: `startsWithL l p` asks whether `l` starts with `p`. -/
def startsWithL : List Char → List Char → Bool
  | _, [] => true
  | [], _ :: _ => false
  | a :: as, b :: bs => a = b && startsWithL as bs

/-- Substring test: `hasSubL sub l` asks whether `sub` occurs
contiguously inside `l`.  Embeds JS `String.prototype.includes`. -/
def hasSubL (sub : List Char) : List Char → Bool
  | [] => sub.isEmpty
  | a :: as => startsWithL (a :: as) sub || hasSubL sub as

/-- JS `value.includes(sub)` on our (ASCII) strings. -/
def hasSub (s sub : String) : Bool :=
  hasSubL sub.toList s.toList

/-- The call `value.replace(/^data:image\/\w+;base64,/, "")` from
`src/server.js:132`: strip the prefix `data:image/<one or more word
chars>;base64,` when the string starts with it, otherwise return the
string unchanged (the regex is anchored and non-global). -/
def stripDataUri (s : String) : String :=
  match dropPre ("data:image/".toList) s.toList with
  | none => s
  | some rest =>
    match rest.takeWhile isWordChar,
        dropPre (";base64,".toList) (rest.dropWhile isWordChar) with
    | _ :: _, some tail => ⟨tail⟩
    | _, _ => s

/-- The external collaborators of the handlers, as the spec's §9
"injected dependencies": Buffer base64 decoding, pdf-lib image
embedding (`none` models a thrown decode error), pdf-lib document
load/save, the sha256 hex digest, `Date`-derived timestamp text and
`BASE_URL`. Bytes are modelled as `List Nat`. -/
structure Collab where
  b64decode : String → List Nat
  embedJpg : List Nat → Option Img
  embedPng : List Nat → Option Img
  loadPdf : List Nat → Option (List Page)
  savePdf : List Page → List Nat
  hash : List Nat → String
  now : String
  baseUrl : String

/-- Lines 131–138 of `src/server.js`: base64-decode the value with its
data-URI prefix stripped, then embed as JPEG when the *original* value
contains the substring `"jpeg"`, else as PNG.  `none` models the decode
exception propagating out of the field loop. -/
def sigEmbed (c : Collab) (value : String) : Option Img :=
  let imgBytes := c.b64decode (stripDataUri value)
  if hasSub value "jpeg" then c.embedJpg imgBytes else c.embedPng imgBytes

/-- Lines 140–148 of `src/server.js`: aspect-fit placement of an
embedded image inside the resolved rectangle —
`scale = Math.min(w/img.width, h/img.height)`,
`drawW = img.width*scale`, `drawH = img.height*scale`, drawn at
`x + (w-drawW)/2`, `y + (h-drawH)/2`. -/
def sigPlacement (rect : Rect) (img : Img) : Rect :=
  let scale := min (rect.w / img.width) (rect.h / img.height)
  let drawW := img.width * scale
  let drawH := img.height * scale
  { x := rect.x + (rect.w - drawW) / 2
    y := rect.y + (rect.h - drawH) / 2
    w := drawW
    h := drawH }

/-- One iteration of the field loop (`src/server.js:108-151`).
`pages[field.page - 1]` is `undefined` when `field.page - 1` falls
outside the array (including `field.page = 0`, i.e. index `-1`), and the
loop then `continue`s; otherwise the rectangle is resolved against that
page's size and the type-guarded branches draw.  `none` models a thrown
image-decode error. -/
def renderField (c : Collab) (pages : List Page) (f : Field) :
    Option (List Page) :=
  if f.page = 0 then some pages else
  match pages[f.page - 1]? with
  | none => some pages
  | some pg =>
    let r := resolveRect f pg.width pg.height
    let pg1 :=
      if (f.type = "text" ∨ f.type = "date") ∧ f.value ≠ "" then
        { pg with ops := pg.ops ++
            [DrawOp.drawText f.value r.x (r.y + r.h * 0.35) 11 0 0 0] }
      else pg
    if f.type = "signature" ∧ f.value ≠ "" then
      match sigEmbed c f.value with
      | none => none
      | some img =>
        let p := sigPlacement r img
        some (pages.set (f.page - 1)
          { pg1 with ops := pg1.ops ++ [DrawOp.drawImage img p.x p.y p.w p.h] })
    else some (pages.set (f.page - 1) pg1)

/-- The whole `for (const field of fields)` loop: fields processed
strictly in input order, a thrown decode error aborts the rest. -/
def renderFields (c : Collab) (pages : List Page) :
    List Field → Option (List Page)
  | [] => some pages
  | f :: fs =>
    match renderField c pages f with
    | none => none
    | some pages1 => renderFields c pages1 fs

/-- One document of the Mongo `Audit` collection
(`src/models/Audit.js`): `{pdfId, originalHash, finalHash, createdAt}`. -/
structure AuditRecord where
  pdfId : String
  originalHash : String
  finalHash : String
  createdAt : String
  deriving DecidableEq

/-- Association-list lookup, modelling a read of the file keyed by a
pdf id inside one uploads directory. -/
def lookupA : List (String × List Nat) → String → Option (List Nat)
  | [], _ => none
  | (k, v) :: rest, key => if k = key then some v else lookupA rest key

/-- Embeds `fs.writeFileSync` on a keyed slot: overwrite if the key exists,
create it otherwise. -/
def setAssoc : List (String × List Nat) → String → List Nat →
    List (String × List Nat)
  | [], k, v => [(k, v)]
  | (k1, v1) :: rest, k, v =>
    if k1 = k then (k, v) :: rest else (k1, v1) :: setAssoc rest k v

/-- The mutable world the two handlers touch: the
`uploads/original` and `uploads/signed` directories, and the Mongo
`Audit` collection in insertion order. -/
structure ServerState where
  originals : List (String × List Nat)
  signed : List (String × List Nat)
  audits : List AuditRecord
  deriving DecidableEq

/-- Outcome of the `/finalize-pdf` handler: the 404 branch, the
`catch`-produced 500 response, or the success JSON. -/
inductive FinalizeResult where
  | notFound (msg : String)
  | failed (msg : String)
  | ok (url originalHash finalHash : String)
  deriving DecidableEq

/-- Is the result the success JSON? -/
def FinalizeResult.isOk : FinalizeResult → Bool
  | .ok _ _ _ => true
  | _ => false

/-- The `/finalize-pdf` handler (`src/server.js:92-179`): look up the
original (404 if absent), hash it, load it, render every field in
order, save, hash the output, write `signed/{pdfId}-final.pdf`, append
one audit record, and answer with the signed URL and both hashes.  Any
exception before the writes (load failure, field decode failure) lands
in the `catch` and answers 500 with nothing written. -/
def finalize (c : Collab) (st : ServerState) (pdfId : String)
    (fields : List Field) : FinalizeResult × ServerState :=
  match lookupA st.originals pdfId with
  | none => (.notFound "PDF not found", st)
  | some originalBytes =>
    let originalHash := c.hash originalBytes
    match c.loadPdf originalBytes with
    | none => (.failed "PDF finalization failed", st)
    | some pages =>
      match renderFields c pages fields with
      | none => (.failed "PDF finalization failed", st)
      | some pagesFinal =>
        let finalPdf := c.savePdf pagesFinal
        let finalHash := c.hash finalPdf
        let st1 : ServerState :=
          { st with signed := setAssoc st.signed pdfId finalPdf }
        let st2 : ServerState :=
          { st1 with audits := st1.audits ++
              [{ pdfId := pdfId, originalHash := originalHash,
                 finalHash := finalHash, createdAt := c.now }] }
        (.ok (c.baseUrl ++ "/files/signed/" ++ pdfId ++ "-final.pdf")
          originalHash finalHash, st2)

/-- Outcome of the `/upload-pdf` handler: the 400 branch or the
success JSON. -/
inductive UploadResult where
  | noFile (msg : String)
  | ok (pdfId url : String)
  deriving DecidableEq

/-- The `/upload-pdf` handler (`src/server.js:70-89`): reject a missing
file, otherwise derive `pdfId = Date.now().toString()` from the
wall-clock reading `now`, write the bytes to
`original/{pdfId}.pdf`, and answer with the id and its URL. -/
def upload (c : Collab) (now : Nat) (file : Option (List Nat))
    (st : ServerState) : UploadResult × ServerState :=
  match file with
  | none => (.noFile "No PDF uploaded", st)
  | some buf =>
    let pdfId := toString now
    (.ok pdfId (c.baseUrl ++ "/files/original/" ++ pdfId ++ ".pdf"),
     { st with originals := setAssoc st.originals pdfId buf })

/-- A concrete one-page 612×792 document, for witnesses. -/
def pgSample : Page := { width := 612, height := 792, ops := [] }

/-- A concrete collaborator record, for witnesses: every external call
succeeds. -/
def sampleCollab : Collab :=
  { b64decode := fun _ => []
    embedJpg := fun _ => some { width := 2, height := 1 }
    embedPng := fun _ => some { width := 2, height := 1 }
    loadPdf := fun _ => some [pgSample]
    savePdf := fun _ => [0]
    hash := fun b => toString b.length
    now := "now"
    baseUrl := "http://localhost:5000" }

/-- A collaborator record whose PNG embedding throws a decode error,
for witnesses of the fail-atomicity claims. -/
def failCollab : Collab := { sampleCollab with embedPng := fun _ => none }

/-- A concrete server state holding one uploaded original, for
witnesses. -/
def stSample : ServerState :=
  { originals := [("1", [7, 7])], signed := [], audits := [] }

/-- Concrete text field on page 1, for witnesses. -/
def fldA : Field :=
  { page := 1, type := "text", value := "a",
    xRatio := 0, yRatio := 0, wRatio := 1/2, hRatio := 1/2 }

/-- Concrete field whose page index (5) has no corresponding page in a
one-page document, for witnesses. -/
def fldBad : Field :=
  { page := 5, type := "text", value := "b",
    xRatio := 0, yRatio := 0, wRatio := 1/2, hRatio := 1/2 }

/-- Concrete date field on page 1, for witnesses. -/
def fldC : Field :=
  { page := 1, type := "date", value := "c",
    xRatio := 0, yRatio := 0, wRatio := 1/2, hRatio := 1/2 }

/-- Concrete field with an unrecognized type, for witnesses. -/
def fldUnknown : Field :=
  { page := 1, type := "checkbox", value := "yes",
    xRatio := 0, yRatio := 0, wRatio := 1/2, hRatio := 1/2 }

/-- A two-field finalize request whose first field is a signature whose
image fails to decode (field 1 of 2), for witnesses. -/
def sigFlds : List Field :=
  [ { page := 1, type := "signature", value := "AAAA",
      xRatio := 0, yRatio := 0, wRatio := 1/2, hRatio := 1/2 },
    { page := 1, type := "text", value := "Hello",
      xRatio := 0, yRatio := 0, wRatio := 1/2, hRatio := 1/20 } ]

end SigEngine

/-- C1: `finalize` resolves every field's rectangle as
`x = xRatio*pageWidth`, `y = pageHeight - yRatio*pageHeight - hRatio*pageHeight`,
`w = wRatio*pageWidth`, `h = hRatio*pageHeight`, uniformly for every field
type (changing `type`/`value` never changes the rectangle); on a 612×792
page with ratios (0.1, 0.1, 0.3, 0.05) the resolved rectangle is
x=61.2, y=673.2, w=183.6, h=39.6. -/
theorem SigEngine.c1_geometry_resolution (f : SigEngine.Field) (pw ph : ℚ) :
    SigEngine.resolveRect f pw ph =
      { x := f.xRatio * pw
        y := ph - f.yRatio * ph - f.hRatio * ph
        w := f.wRatio * pw
        h := f.hRatio * ph } ∧
    (∀ t v : String,
      SigEngine.resolveRect { f with type := t, value := v } pw ph =
        SigEngine.resolveRect f pw ph) ∧
    SigEngine.resolveRect
        { page := 1, type := "text", value := "Hello",
          xRatio := 0.1, yRatio := 0.1, wRatio := 0.3, hRatio := 0.05 }
        612 792 =
      { x := 61.2, y := 673.2, w := 183.6, h := 39.6 } := by
  refine ⟨rfl, fun t v => rfl, ?_⟩
  simp only [SigEngine.resolveRect, SigEngine.Rect.mk.injEq]
  norm_num

/-- C3: signature images are drawn aspect-fit and centered — with
`scale = min(w/imgWidth, h/imgHeight)` the drawn size is
`imgWidth*scale × imgHeight*scale` placed at
`(x + (w-drawW)/2, y + (h-drawH)/2)`; hence the drawn image never
exceeds the box in either axis and keeps the image's aspect ratio. -/
theorem SigEngine.c3_aspect_fit (rect : SigEngine.Rect) (img : SigEngine.Img)
    (hw : 0 < rect.w) (hh : 0 < rect.h)
    (hiw : 0 < img.width) (hih : 0 < img.height) :
    (SigEngine.sigPlacement rect img).w =
        img.width * min (rect.w / img.width) (rect.h / img.height) ∧
    (SigEngine.sigPlacement rect img).h =
        img.height * min (rect.w / img.width) (rect.h / img.height) ∧
    (SigEngine.sigPlacement rect img).x =
        rect.x + (rect.w - (SigEngine.sigPlacement rect img).w) / 2 ∧
    (SigEngine.sigPlacement rect img).y =
        rect.y + (rect.h - (SigEngine.sigPlacement rect img).h) / 2 ∧
    (SigEngine.sigPlacement rect img).w ≤ rect.w ∧
    (SigEngine.sigPlacement rect img).h ≤ rect.h ∧
    (SigEngine.sigPlacement rect img).w / (SigEngine.sigPlacement rect img).h =
        img.width / img.height := by
  have hs : 0 < min (rect.w / img.width) (rect.h / img.height) :=
    lt_min (div_pos hw hiw) (div_pos hh hih)
  refine ⟨rfl, rfl, rfl, rfl, ?_, ?_, ?_⟩
  · show img.width * min (rect.w / img.width) (rect.h / img.height) ≤ rect.w
    calc img.width * min (rect.w / img.width) (rect.h / img.height)
        ≤ img.width * (rect.w / img.width) :=
          mul_le_mul_of_nonneg_left (min_le_left _ _) hiw.le
      _ = rect.w := by field_simp
  · show img.height * min (rect.w / img.width) (rect.h / img.height) ≤ rect.h
    calc img.height * min (rect.w / img.width) (rect.h / img.height)
        ≤ img.height * (rect.h / img.height) :=
          mul_le_mul_of_nonneg_left (min_le_right _ _) hih.le
      _ = rect.h := by field_simp
  · show img.width * min (rect.w / img.width) (rect.h / img.height) /
        (img.height * min (rect.w / img.width) (rect.h / img.height)) =
        img.width / img.height
    rw [mul_div_mul_right _ _ (ne_of_gt hs)]

/-- Witness for C3 at the spec's own example: a 200×100 image into a
100×100 box is drawn at scale 0.5 as 100×50, centered with a vertical
offset of 25. -/
theorem SigEngine.c3_aspect_fit_witness :
    (0 : ℚ) < 100 ∧ (0 : ℚ) < 200 ∧
    ((SigEngine.sigPlacement ⟨0, 0, 100, 100⟩ ⟨200, 100⟩).w ≤ 100 ∧
      (SigEngine.sigPlacement ⟨0, 0, 100, 100⟩ ⟨200, 100⟩).h ≤ 100 ∧
      (SigEngine.sigPlacement ⟨0, 0, 100, 100⟩ ⟨200, 100⟩).w /
          (SigEngine.sigPlacement ⟨0, 0, 100, 100⟩ ⟨200, 100⟩).h =
        (200 : ℚ) / 100) ∧
    SigEngine.sigPlacement ⟨0, 0, 100, 100⟩ ⟨200, 100⟩ = ⟨0, 25, 100, 50⟩ := by
  have h := SigEngine.c3_aspect_fit ⟨0, 0, 100, 100⟩ ⟨200, 100⟩
    (by norm_num) (by norm_num) (by norm_num) (by norm_num)
  refine ⟨by norm_num, by norm_num,
    ⟨h.2.2.2.2.1, h.2.2.2.2.2.1, h.2.2.2.2.2.2⟩, ?_⟩
  simp only [SigEngine.sigPlacement, SigEngine.Rect.mk.injEq, min_def]
  norm_num

/-- C7: for ratios in [0,1] and positive page dimensions, the resolved
`y` satisfies `0 ≤ y ≤ pageHeight` whenever `yRatio + hRatio ≤ 1`, and
all four resolved coordinates scale linearly with the page
dimensions. -/
theorem SigEngine.c7_resolve_bounds_linear (f : SigEngine.Field) (pw ph k : ℚ)
    (hx0 : 0 ≤ f.xRatio) (hx1 : f.xRatio ≤ 1)
    (hy0 : 0 ≤ f.yRatio) (hy1 : f.yRatio ≤ 1)
    (hw0 : 0 ≤ f.wRatio) (hw1 : f.wRatio ≤ 1)
    (hh0 : 0 ≤ f.hRatio) (hh1 : f.hRatio ≤ 1)
    (hpw : 0 < pw) (hph : 0 < ph)
    (hyh : f.yRatio + f.hRatio ≤ 1) :
    (0 ≤ (SigEngine.resolveRect f pw ph).y ∧
      (SigEngine.resolveRect f pw ph).y ≤ ph) ∧
    SigEngine.resolveRect f (k * pw) (k * ph) =
      { x := k * (SigEngine.resolveRect f pw ph).x,
        y := k * (SigEngine.resolveRect f pw ph).y,
        w := k * (SigEngine.resolveRect f pw ph).w,
        h := k * (SigEngine.resolveRect f pw ph).h } := by
  refine ⟨⟨?_, ?_⟩, ?_⟩
  · simp only [SigEngine.resolveRect]
    nlinarith
  · simp only [SigEngine.resolveRect]
    nlinarith
  · simp only [SigEngine.resolveRect, SigEngine.Rect.mk.injEq]
    exact ⟨by ring, by ring, by ring, by ring⟩

/-- Witness for C7 at the spec's example field on a 612×792 page,
scaled by 2. -/
theorem SigEngine.c7_resolve_bounds_linear_witness :
    ((0 : ℚ) ≤ 1/10 ∧ (1/10 : ℚ) ≤ 1 ∧ (0 : ℚ) < 612 ∧ (0 : ℚ) < 792 ∧
      (1/10 : ℚ) + 1/20 ≤ 1) ∧
    (0 ≤ (SigEngine.resolveRect
        { page := 1, type := "text", value := "Hello",
          xRatio := 1/10, yRatio := 1/10, wRatio := 3/10, hRatio := 1/20 }
        612 792).y ∧
      (SigEngine.resolveRect
        { page := 1, type := "text", value := "Hello",
          xRatio := 1/10, yRatio := 1/10, wRatio := 3/10, hRatio := 1/20 }
        612 792).y ≤ 792) ∧
    SigEngine.resolveRect
        { page := 1, type := "text", value := "Hello",
          xRatio := 1/10, yRatio := 1/10, wRatio := 3/10, hRatio := 1/20 }
        (2 * 612) (2 * 792) =
      { x := 2 * (SigEngine.resolveRect
          { page := 1, type := "text", value := "Hello",
            xRatio := 1/10, yRatio := 1/10, wRatio := 3/10, hRatio := 1/20 }
          612 792).x,
        y := 2 * (SigEngine.resolveRect
          { page := 1, type := "text", value := "Hello",
            xRatio := 1/10, yRatio := 1/10, wRatio := 3/10, hRatio := 1/20 }
          612 792).y,
        w := 2 * (SigEngine.resolveRect
          { page := 1, type := "text", value := "Hello",
            xRatio := 1/10, yRatio := 1/10, wRatio := 3/10, hRatio := 1/20 }
          612 792).w,
        h := 2 * (SigEngine.resolveRect
          { page := 1, type := "text", value := "Hello",
            xRatio := 1/10, yRatio := 1/10, wRatio := 3/10, hRatio := 1/20 }
          612 792).h } := by
  have h := SigEngine.c7_resolve_bounds_linear
    { page := 1, type := "text", value := "Hello",
      xRatio := 1/10, yRatio := 1/10, wRatio := 3/10, hRatio := 1/20 }
    612 792 2
    (by norm_num) (by norm_num) (by norm_num) (by norm_num)
    (by norm_num) (by norm_num) (by norm_num) (by norm_num)
    (by norm_num) (by norm_num) (by norm_num)
  exact ⟨⟨by norm_num, by norm_num, by norm_num, by norm_num, by norm_num⟩,
    h.1, h.2⟩

/-- C2: finalize is fail-atomic — when a field render throws (a decode
failure of a signature image), the handler lands in the `catch`, the
caller gets the 500 error, and the server state is exactly what it was:
no `signed/` file written, no audit record created. -/
theorem SigEngine.c2_fail_atomic (c : SigEngine.Collab)
    (st : SigEngine.ServerState) (pdfId : String)
    (fields : List SigEngine.Field) (bytes : List Nat)
    (pages : List SigEngine.Page)
    (hb : SigEngine.lookupA st.originals pdfId = some bytes)
    (hl : c.loadPdf bytes = some pages)
    (hr : SigEngine.renderFields c pages fields = none) :
    SigEngine.finalize c st pdfId fields =
      (.failed "PDF finalization failed", st) := by
  simp only [SigEngine.finalize, hb, hl, hr]

/-- Witness for C2: a concrete two-field request whose first signature
field fails to decode (field 1 of 2) aborts with the 500 error and an
unchanged state. -/
theorem SigEngine.c2_fail_atomic_witness :
    (SigEngine.lookupA SigEngine.stSample.originals "1" = some [7, 7] ∧
      SigEngine.failCollab.loadPdf [7, 7] = some [SigEngine.pgSample] ∧
      SigEngine.renderFields SigEngine.failCollab [SigEngine.pgSample]
        SigEngine.sigFlds = none) ∧
    SigEngine.finalize SigEngine.failCollab SigEngine.stSample "1"
        SigEngine.sigFlds =
      (.failed "PDF finalization failed", SigEngine.stSample) :=
  ⟨⟨rfl, rfl, rfl⟩,
    SigEngine.c2_fail_atomic SigEngine.failCollab SigEngine.stSample "1"
      SigEngine.sigFlds [7, 7] [SigEngine.pgSample] rfl rfl rfl⟩

/-- Writing back the element that was just read leaves the list
unchanged. -/
theorem SigEngine.set_get_eq_self {α : Type} (l : List α) (i : Nat) (a : α)
    (h : l[i]? = some a) : l.set i a = l := by
  induction l generalizing i with
  | nil => simp at h
  | cons b bs ih =>
    cases i with
    | zero =>
      simp only [List.getElem?_cons_zero] at h
      cases h
      rfl
    | succ n =>
      simp only [List.getElem?_cons_succ] at h
      simp [List.set, ih n h]

/-- A field render never changes the number of pages (drawing only
appends instructions to one page). -/
theorem SigEngine.renderField_some_length {c : SigEngine.Collab}
    {ps ps' : List SigEngine.Page} {f : SigEngine.Field}
    (h : SigEngine.renderField c ps f = some ps') :
    ps'.length = ps.length := by
  unfold SigEngine.renderField at h
  repeat' split at h
  all_goals cases h <;> simp

/-- Rendering a list of fields never changes the number of pages. -/
theorem SigEngine.renderFields_some_length {c : SigEngine.Collab}
    {ps ps' : List SigEngine.Page} {fs : List SigEngine.Field}
    (h : SigEngine.renderFields c ps fs = some ps') :
    ps'.length = ps.length := by
  induction fs generalizing ps with
  | nil =>
    simp only [SigEngine.renderFields] at h
    cases h; rfl
  | cons f fs ih =>
    simp only [SigEngine.renderFields] at h
    cases hf : SigEngine.renderField c ps f with
    | none => rw [hf] at h; cases h
    | some ps1 =>
      rw [hf] at h
      exact (ih h).trans (SigEngine.renderField_some_length hf)

/-- The field loop splits over list append. -/
theorem SigEngine.renderFields_append (c : SigEngine.Collab)
    (pages : List SigEngine.Page) (l1 l2 : List SigEngine.Field) :
    SigEngine.renderFields c pages (l1 ++ l2) =
      (SigEngine.renderFields c pages l1).bind
        (fun ps => SigEngine.renderFields c ps l2) := by
  induction l1 generalizing pages with
  | nil => simp [SigEngine.renderFields]
  | cons f fs ih =>
    simp only [List.cons_append, SigEngine.renderFields]
    cases h : SigEngine.renderField c pages f with
    | none => simp
    | some ps => simp [ih]

/-- A field whose 1-indexed page is `0` or exceeds the page count maps
to `undefined` in `pages[field.page - 1]` and is skipped. -/
theorem SigEngine.renderField_oob {c : SigEngine.Collab}
    {f : SigEngine.Field} (ps : List SigEngine.Page)
    (hf : f.page = 0 ∨ ps.length < f.page) :
    SigEngine.renderField c ps f = some ps := by
  unfold SigEngine.renderField
  rcases hf with h | h
  · simp [h]
  · have h0 : ¬ f.page = 0 := by omega
    have hg : ps[f.page - 1]? = none := by
      apply List.getElem?_eq_none
      omega
    simp [h0, hg]

/-- C4: a field whose page index has no corresponding page is silently
skipped — the field loop on `l1 ++ [f] ++ l2` produces exactly the
result of the loop on `l1 ++ l2`: no draw for `f`, no abort, and every
other field still processed. -/
theorem SigEngine.c4_out_of_range_page_skipped (c : SigEngine.Collab)
    (pages : List SigEngine.Page) (l1 l2 : List SigEngine.Field)
    (f : SigEngine.Field)
    (hf : f.page = 0 ∨ pages.length < f.page) :
    SigEngine.renderFields c pages (l1 ++ f :: l2) =
      SigEngine.renderFields c pages (l1 ++ l2) := by
  rw [SigEngine.renderFields_append, SigEngine.renderFields_append]
  cases h : SigEngine.renderFields c pages l1 with
  | none => rfl
  | some ps =>
    show SigEngine.renderFields c ps (f :: l2) = SigEngine.renderFields c ps l2
    have hoob : f.page = 0 ∨ ps.length < f.page := by
      rcases hf with h0 | hlt
      · exact Or.inl h0
      · right
        rw [SigEngine.renderFields_some_length h]
        exact hlt
    simp [SigEngine.renderFields, SigEngine.renderField_oob ps hoob]

/-- Witness for C4: with one 612×792 page, a field targeting page 5
between two drawn text fields changes nothing about the outcome. -/
theorem SigEngine.c4_out_of_range_page_skipped_witness :
    (SigEngine.fldBad.page = 0 ∨
      [SigEngine.pgSample].length < SigEngine.fldBad.page) ∧
    SigEngine.renderFields SigEngine.sampleCollab [SigEngine.pgSample]
        ([SigEngine.fldA] ++ SigEngine.fldBad :: [SigEngine.fldC]) =
      SigEngine.renderFields SigEngine.sampleCollab [SigEngine.pgSample]
        ([SigEngine.fldA] ++ [SigEngine.fldC]) :=
  ⟨Or.inr (by simp [SigEngine.pgSample, SigEngine.fldBad]),
    SigEngine.c4_out_of_range_page_skipped SigEngine.sampleCollab
      [SigEngine.pgSample] [SigEngine.fldA] [SigEngine.fldC] SigEngine.fldBad
      (Or.inr (by simp [SigEngine.pgSample, SigEngine.fldBad]))⟩

/-- A field whose type is none of `text`, `date`, `signature` matches
neither type-guarded branch, so the loop body writes the page back
unchanged. -/
theorem SigEngine.renderField_unknown_type {c : SigEngine.Collab}
    {f : SigEngine.Field} (ps : List SigEngine.Page)
    (h1 : f.type ≠ "text") (h2 : f.type ≠ "date") (h3 : f.type ≠ "signature") :
    SigEngine.renderField c ps f = some ps := by
  unfold SigEngine.renderField
  split
  · rfl
  · cases hg : ps[f.page - 1]? with
    | none => rfl
    | some pg =>
      have ht : ¬ ((f.type = "text" ∨ f.type = "date") ∧ f.value ≠ "") := by
        rintro ⟨h | h, -⟩ <;> contradiction
      have hs : ¬ (f.type = "signature" ∧ f.value ≠ "") := by
        rintro ⟨h, -⟩
        contradiction
      simp only [hg, if_neg ht, if_neg hs]
      rw [SigEngine.set_get_eq_self ps (f.page - 1) pg hg]

/-- C10: a field whose type is none of `text`, `date`, `signature`
(whatever its page index) contributes nothing: the field loop on
`l1 ++ [f] ++ l2` produces exactly the result of the loop on
`l1 ++ l2`, with no error and every other field still processed. -/
theorem SigEngine.c10_unknown_type_skipped (c : SigEngine.Collab)
    (pages : List SigEngine.Page) (l1 l2 : List SigEngine.Field)
    (f : SigEngine.Field)
    (h1 : f.type ≠ "text") (h2 : f.type ≠ "date")
    (h3 : f.type ≠ "signature") :
    SigEngine.renderFields c pages (l1 ++ f :: l2) =
      SigEngine.renderFields c pages (l1 ++ l2) := by
  rw [SigEngine.renderFields_append, SigEngine.renderFields_append]
  cases h : SigEngine.renderFields c pages l1 with
  | none => rfl
  | some ps =>
    show SigEngine.renderFields c ps (f :: l2) = SigEngine.renderFields c ps l2
    simp [SigEngine.renderFields,
      SigEngine.renderField_unknown_type ps h1 h2 h3]

/-- Witness for C10: a `checkbox` field with an in-range page between
two drawn fields changes nothing about the outcome. -/
theorem SigEngine.c10_unknown_type_skipped_witness :
    (SigEngine.fldUnknown.type ≠ "text" ∧
      SigEngine.fldUnknown.type ≠ "date" ∧
      SigEngine.fldUnknown.type ≠ "signature") ∧
    SigEngine.renderFields SigEngine.sampleCollab [SigEngine.pgSample]
        ([SigEngine.fldA] ++ SigEngine.fldUnknown :: [SigEngine.fldC]) =
      SigEngine.renderFields SigEngine.sampleCollab [SigEngine.pgSample]
        ([SigEngine.fldA] ++ [SigEngine.fldC]) :=
  ⟨⟨by decide, by decide, by decide⟩,
    SigEngine.c10_unknown_type_skipped SigEngine.sampleCollab
      [SigEngine.pgSample] [SigEngine.fldA] [SigEngine.fldC]
      SigEngine.fldUnknown (by decide) (by decide) (by decide)⟩

/-- C6: for a text or date field on an existing page, drawing happens
iff `value` is non-empty; when drawn, exactly one `drawText` op is
appended, starting at `rect.x` with baseline `rect.y + rect.h * 0.35`,
font size 11, black fill; an empty value leaves the document
untouched. -/
theorem SigEngine.c6_text_date_draw (c : SigEngine.Collab)
    (pages : List SigEngine.Page) (f : SigEngine.Field)
    (pg : SigEngine.Page)
    (hp : f.page ≠ 0)
    (hpg : pages[f.page - 1]? = some pg)
    (ht : f.type = "text" ∨ f.type = "date") :
    (f.value ≠ "" →
      SigEngine.renderField c pages f = some (pages.set (f.page - 1)
        { pg with ops := pg.ops ++
            [SigEngine.DrawOp.drawText f.value
              (SigEngine.resolveRect f pg.width pg.height).x
              ((SigEngine.resolveRect f pg.width pg.height).y +
                (SigEngine.resolveRect f pg.width pg.height).h * 0.35)
              11 0 0 0] })) ∧
    (f.value = "" → SigEngine.renderField c pages f = some pages) := by
  have hsig : f.type ≠ "signature" := by
    rcases ht with h | h <;> simp [h]
  constructor
  · intro hv
    unfold SigEngine.renderField
    simp only [if_neg hp, hpg]
    rw [if_neg (fun hc => hsig hc.1), if_pos ⟨ht, hv⟩]
  · intro hv
    unfold SigEngine.renderField
    simp only [if_neg hp, hpg]
    rw [if_neg (fun hc => hc.2 hv), if_neg (fun hc => hc.2 hv),
      SigEngine.set_get_eq_self pages (f.page - 1) pg hpg]

/-- Witness for C6 at the concrete text field `fldA` on a one-page
document. -/
theorem SigEngine.c6_text_date_draw_witness :
    (SigEngine.fldA.page ≠ 0 ∧
      [SigEngine.pgSample][SigEngine.fldA.page - 1]? =
        some SigEngine.pgSample ∧
      (SigEngine.fldA.type = "text" ∨ SigEngine.fldA.type = "date")) ∧
    ((SigEngine.fldA.value ≠ "" →
      SigEngine.renderField SigEngine.sampleCollab [SigEngine.pgSample]
          SigEngine.fldA =
        some ([SigEngine.pgSample].set (SigEngine.fldA.page - 1)
          { SigEngine.pgSample with ops := SigEngine.pgSample.ops ++
              [SigEngine.DrawOp.drawText SigEngine.fldA.value
                (SigEngine.resolveRect SigEngine.fldA SigEngine.pgSample.width
                  SigEngine.pgSample.height).x
                ((SigEngine.resolveRect SigEngine.fldA SigEngine.pgSample.width
                  SigEngine.pgSample.height).y +
                  (SigEngine.resolveRect SigEngine.fldA SigEngine.pgSample.width
                    SigEngine.pgSample.height).h * 0.35)
                11 0 0 0] })) ∧
      (SigEngine.fldA.value = "" →
        SigEngine.renderField SigEngine.sampleCollab [SigEngine.pgSample]
          SigEngine.fldA = some [SigEngine.pgSample])) :=
  ⟨⟨by decide, rfl, Or.inl rfl⟩,
    SigEngine.c6_text_date_draw SigEngine.sampleCollab [SigEngine.pgSample]
      SigEngine.fldA SigEngine.pgSample (by decide) rfl (Or.inl rfl)⟩

/-- String concatenation concatenates the character lists. -/
theorem SigEngine.toList_append (s t : String) :
    (s ++ t).toList = s.toList ++ t.toList := rfl

/-- Strings with the same characters are equal. -/
theorem SigEngine.toList_inj {s t : String} (h : s.toList = t.toList) :
    s = t :=
  congrArg String.mk h

/-- Dropping an exact leading run: `dropPre` removes it. -/
theorem SigEngine.dropPre_append (p r : List Char) :
    SigEngine.dropPre p (p ++ r) = some r := by
  induction p with
  | nil => rfl
  | cons a as ih => simp [SigEngine.dropPre, ih]

/-- Splitting lemma: `takeWhile`/`dropWhile` split a list made of an all-satisfying run
followed by a failing head. -/
theorem SigEngine.takeWhile_word_stop (m : List Char) (b : Char)
    (t : List Char) (hw : ∀ ch ∈ m, SigEngine.isWordChar ch = true)
    (hb : SigEngine.isWordChar b = false) :
    (m ++ b :: t).takeWhile SigEngine.isWordChar = m ∧
    (m ++ b :: t).dropWhile SigEngine.isWordChar = b :: t := by
  induction m with
  | nil => simp [List.takeWhile_cons, List.dropWhile_cons, hb]
  | cons a as ih =>
    have ha : SigEngine.isWordChar a = true := hw a (by simp)
    have hrec := ih (fun ch hch => hw ch (by simp [hch]))
    simp [List.takeWhile_cons, List.dropWhile_cons, ha, hrec.1, hrec.2]

/-- Soundness and completeness of `startsWithL`. -/
theorem SigEngine.startsWithL_iff (p : List Char) (l : List Char) :
    SigEngine.startsWithL l p = true ↔ ∃ t, l = p ++ t := by
  induction p generalizing l with
  | nil => simp [SigEngine.startsWithL]
  | cons b bs ih =>
    cases l with
    | nil => simp [SigEngine.startsWithL]
    | cons a as =>
      simp only [SigEngine.startsWithL, Bool.and_eq_true, decide_eq_true_eq,
        ih, List.cons_append]
      constructor
      · rintro ⟨rfl, t, rfl⟩
        exact ⟨t, rfl⟩
      · rintro ⟨t, h⟩
        rw [List.cons.injEq] at h
        exact ⟨h.1, t, h.2⟩

/-- Soundness and completeness of `hasSubL`. -/
theorem SigEngine.hasSubL_iff (sub l : List Char) :
    SigEngine.hasSubL sub l = true ↔ ∃ s t, l = s ++ sub ++ t := by
  induction l with
  | nil =>
    simp only [SigEngine.hasSubL, List.isEmpty_iff]
    constructor
    · intro h
      exact ⟨[], [], by simp [h]⟩
    · rintro ⟨s, t, h⟩
      have h2 := h.symm
      rw [List.append_eq_nil] at h2
      exact (List.append_eq_nil.mp h2.1).2
  | cons a as ih =>
    simp only [SigEngine.hasSubL, Bool.or_eq_true, SigEngine.startsWithL_iff,
      ih]
    constructor
    · rintro (⟨t, h⟩ | ⟨s, t, h⟩)
      · exact ⟨[], t, by simpa using h⟩
      · exact ⟨a :: s, t, by simp [h]⟩
    · rintro ⟨s, t, h⟩
      cases s with
      | nil => exact Or.inl ⟨t, by simpa using h⟩
      | cons b bs =>
        simp only [List.cons_append, List.cons.injEq] at h
        exact Or.inr ⟨bs, t, h.2⟩

/-- The anchored regex strips exactly a well-formed
`data:image/<mime>;base64,` prefix. -/
theorem SigEngine.stripDataUri_dataUri (m r : String)
    (hm : m.toList ≠ [])
    (hw : ∀ ch ∈ m.toList, SigEngine.isWordChar ch = true) :
    SigEngine.stripDataUri ("data:image/" ++ m ++ ";base64," ++ r) = r := by
  unfold SigEngine.stripDataUri
  have hA : ("data:image/" ++ m ++ ";base64," ++ r).toList
      = "data:image/".toList ++
        (m.toList ++ (";base64,".toList ++ r.toList)) := by
    simp [SigEngine.toList_append, List.append_assoc]
  rw [hA, SigEngine.dropPre_append]
  have htw := SigEngine.takeWhile_word_stop m.toList ';'
    ("base64,".toList ++ r.toList) hw (by decide)
  have h1 : (m.toList ++ (";base64,".toList ++ r.toList)).takeWhile
      SigEngine.isWordChar = m.toList := htw.1
  have h2 : (m.toList ++ (";base64,".toList ++ r.toList)).dropWhile
      SigEngine.isWordChar = ";base64,".toList ++ r.toList := htw.2
  split
  · next heq => exact Option.noConfusion heq
  · next rest heq =>
    injection heq with heq'
    subst heq'
    rw [h1, h2, SigEngine.dropPre_append]
    cases hml : m.toList with
    | nil => exact absurd hml hm
    | cons a as => rfl

/-- C5: signature rendering strips a `data:image/<mime>;base64,` prefix
when present (otherwise decodes the whole value) and dispatches on a
substring sniff of the *original* value: it embeds as JPEG exactly when
`"jpeg"` occurs anywhere in the value, else as PNG. -/
theorem SigEngine.c5_signature_decode_dispatch (c : SigEngine.Collab)
    (m r v : String)
    (hm : m.toList ≠ [])
    (hw : ∀ ch ∈ m.toList, SigEngine.isWordChar ch = true) :
    SigEngine.stripDataUri ("data:image/" ++ m ++ ";base64," ++ r) = r ∧
    SigEngine.sigEmbed c ("data:image/" ++ m ++ ";base64," ++ r) =
      (if SigEngine.hasSub ("data:image/" ++ m ++ ";base64," ++ r) "jpeg"
        then c.embedJpg (c.b64decode r)
        else c.embedPng (c.b64decode r)) ∧
    SigEngine.sigEmbed c v =
      (if SigEngine.hasSub v "jpeg"
        then c.embedJpg (c.b64decode (SigEngine.stripDataUri v))
        else c.embedPng (c.b64decode (SigEngine.stripDataUri v))) ∧
    (SigEngine.hasSub v "jpeg" = true ↔
      ∃ s t : String, v = s ++ "jpeg" ++ t) := by
  have hstrip := SigEngine.stripDataUri_dataUri m r hm hw
  refine ⟨hstrip, ?_, rfl, ?_⟩
  · unfold SigEngine.sigEmbed
    rw [hstrip]
  · unfold SigEngine.hasSub
    rw [SigEngine.hasSubL_iff]
    constructor
    · rintro ⟨s, t, h⟩
      exact ⟨⟨s⟩, ⟨t⟩, SigEngine.toList_inj h⟩
    · rintro ⟨s, t, rfl⟩
      exact ⟨s.toList, t.toList, rfl⟩

/-- Witness for C5 at `mime = "png"`, payload `"AAAA"`, and the value
`"data:image/jpeg;base64,BB"` (which contains `"jpeg"`). -/
theorem SigEngine.c5_signature_decode_dispatch_witness :
    (("png" : String).toList ≠ [] ∧
      (∀ ch ∈ ("png" : String).toList, SigEngine.isWordChar ch = true)) ∧
    (SigEngine.stripDataUri ("data:image/" ++ "png" ++ ";base64," ++ "AAAA")
        = "AAAA" ∧
      SigEngine.sigEmbed SigEngine.sampleCollab
          ("data:image/" ++ "png" ++ ";base64," ++ "AAAA") =
        (if SigEngine.hasSub ("data:image/" ++ "png" ++ ";base64," ++ "AAAA")
            "jpeg"
          then SigEngine.sampleCollab.embedJpg
            (SigEngine.sampleCollab.b64decode "AAAA")
          else SigEngine.sampleCollab.embedPng
            (SigEngine.sampleCollab.b64decode "AAAA")) ∧
      SigEngine.sigEmbed SigEngine.sampleCollab "data:image/jpeg;base64,BB" =
        (if SigEngine.hasSub "data:image/jpeg;base64,BB" "jpeg"
          then SigEngine.sampleCollab.embedJpg
            (SigEngine.sampleCollab.b64decode
              (SigEngine.stripDataUri "data:image/jpeg;base64,BB"))
          else SigEngine.sampleCollab.embedPng
            (SigEngine.sampleCollab.b64decode
              (SigEngine.stripDataUri "data:image/jpeg;base64,BB"))) ∧
      (SigEngine.hasSub "data:image/jpeg;base64,BB" "jpeg" = true ↔
        ∃ s t : String, "data:image/jpeg;base64,BB" = s ++ "jpeg" ++ t)) :=
  ⟨⟨by decide, by decide⟩,
    SigEngine.c5_signature_decode_dispatch SigEngine.sampleCollab
      "png" "AAAA" "data:image/jpeg;base64,BB" (by decide) (by decide)⟩

/-- Case analysis of the finalize handler: either it fails with the
state untouched, or it succeeds having written the signed file and
appended exactly one audit record. -/
theorem SigEngine.finalize_spec (c : SigEngine.Collab)
    (st : SigEngine.ServerState) (id : String) (fl : List SigEngine.Field)
    (res : SigEngine.FinalizeResult) (st' : SigEngine.ServerState)
    (h : SigEngine.finalize c st id fl = (res, st')) :
    (res.isOk = false ∧ st' = st) ∨
    (∃ b pgs pgs2, SigEngine.lookupA st.originals id = some b ∧
      c.loadPdf b = some pgs ∧
      SigEngine.renderFields c pgs fl = some pgs2 ∧
      res = .ok (c.baseUrl ++ "/files/signed/" ++ id ++ "-final.pdf")
        (c.hash b) (c.hash (c.savePdf pgs2)) ∧
      st' = { originals := st.originals,
              signed := SigEngine.setAssoc st.signed id (c.savePdf pgs2),
              audits := st.audits ++
                [{ pdfId := id, originalHash := c.hash b,
                   finalHash := c.hash (c.savePdf pgs2),
                   createdAt := c.now }] }) := by
  unfold SigEngine.finalize at h
  split at h
  · cases h
    exact Or.inl ⟨rfl, rfl⟩
  · next b hb =>
    split at h
    · cases h
      exact Or.inl ⟨rfl, rfl⟩
    · next pgs hl =>
      split at h
      · cases h
        exact Or.inl ⟨rfl, rfl⟩
      · next pgs2 hr =>
        cases h
        exact Or.inr ⟨b, pgs, pgs2, hb, hl, hr, rfl, rfl⟩

/-- C8: audit records are append-only — a finalize call never modifies
the stored originals; a successful call appends exactly one new record
(keyed by the document id, stamped with the current time) and a failed
call appends none; re-finalizing the same id after a successful call
appends a second independent record with the same `originalHash`. -/
theorem SigEngine.c8_audit_append_only (c : SigEngine.Collab)
    (st : SigEngine.ServerState) (id : String)
    (fl1 fl2 : List SigEngine.Field) :
    (∀ res st1, SigEngine.finalize c st id fl1 = (res, st1) →
      st1.originals = st.originals ∧
      (res.isOk = true → ∃ rec : SigEngine.AuditRecord,
        st1.audits = st.audits ++ [rec] ∧
        rec.pdfId = id ∧ rec.createdAt = c.now) ∧
      (res.isOk = false → st1 = st)) ∧
    (∀ res1 st1 res2 st2,
      SigEngine.finalize c st id fl1 = (res1, st1) →
      SigEngine.finalize c st1 id fl2 = (res2, st2) →
      res1.isOk = true → res2.isOk = true →
      ∃ rec1 rec2 : SigEngine.AuditRecord,
        st2.audits = st.audits ++ [rec1, rec2] ∧
        rec1.originalHash = rec2.originalHash ∧
        rec1.pdfId = id ∧ rec2.pdfId = id ∧
        st2.originals = st.originals) := by
  constructor
  · intro res st1 h
    rcases SigEngine.finalize_spec c st id fl1 res st1 h with
      ⟨hf, rfl⟩ | ⟨b, pgs, pgs2, hb, hl, hr, hres, hst⟩
    · refine ⟨rfl, fun hk => ?_, fun _ => rfl⟩
      rw [hf] at hk
      cases hk
    · subst hst
      refine ⟨rfl, fun _ => ⟨_, rfl, rfl, rfl⟩, fun hk => ?_⟩
      rw [hres] at hk
      cases hk
  · intro res1 st1 res2 st2 h1 h2 hk1 hk2
    rcases SigEngine.finalize_spec c st id fl1 res1 st1 h1 with
      ⟨hf, -⟩ | ⟨b, pgs, pgs2, hb, hl, hr, hres, hst⟩
    · rw [hf] at hk1
      cases hk1
    · rcases SigEngine.finalize_spec c st1 id fl2 res2 st2 h2 with
        ⟨hf2, -⟩ | ⟨b2, pgs3, pgs4, hb2, hl2, hr2, hres2, hst2⟩
      · rw [hf2] at hk2
        cases hk2
      · subst hst
        subst hst2
        have hb2' : SigEngine.lookupA st.originals id = some b2 := hb2
        rw [hb] at hb2'
        injection hb2' with hbb
        refine ⟨{ pdfId := id, originalHash := c.hash b,
                  finalHash := c.hash (c.savePdf pgs2), createdAt := c.now },
                { pdfId := id, originalHash := c.hash b2,
                  finalHash := c.hash (c.savePdf pgs4), createdAt := c.now },
                ?_, ?_, rfl, rfl, rfl⟩
        · show (st.audits ++ [_]) ++ [_] = st.audits ++ [_, _]
          simp
        · show c.hash b = c.hash b2
          rw [hbb]

/-- Witness for C8: finalizing the stored document "1" twice in a row
appends two records sharing the same original hash, with the originals
untouched. -/
theorem SigEngine.c8_audit_append_only_witness :
    ∃ rec1 rec2 : SigEngine.AuditRecord,
      (SigEngine.finalize SigEngine.sampleCollab
          (SigEngine.finalize SigEngine.sampleCollab SigEngine.stSample
            "1" []).2 "1" []).2.audits =
        SigEngine.stSample.audits ++ [rec1, rec2] ∧
      rec1.originalHash = rec2.originalHash ∧
      rec1.pdfId = "1" ∧ rec2.pdfId = "1" ∧
      (SigEngine.finalize SigEngine.sampleCollab
          (SigEngine.finalize SigEngine.sampleCollab SigEngine.stSample
            "1" []).2 "1" []).2.originals = SigEngine.stSample.originals :=
  (SigEngine.c8_audit_append_only SigEngine.sampleCollab SigEngine.stSample
      "1" [] []).2
    (SigEngine.finalize SigEngine.sampleCollab SigEngine.stSample "1" []).1
    (SigEngine.finalize SigEngine.sampleCollab SigEngine.stSample "1" []).2
    (SigEngine.finalize SigEngine.sampleCollab
      (SigEngine.finalize SigEngine.sampleCollab SigEngine.stSample
        "1" []).2 "1" []).1
    (SigEngine.finalize SigEngine.sampleCollab
      (SigEngine.finalize SigEngine.sampleCollab SigEngine.stSample
        "1" []).2 "1" []).2
    rfl rfl (by decide) (by decide)

/-- C9 (documented latent bug): `pdfId = Date.now().toString()` is the
wall clock, so two distinct uploads in the same millisecond (clock
reading 1000 twice, different file bytes) are both assigned the id
"1000", and the second upload overwrites the first one's stored
original — the ids are not unique per upload. -/
theorem SigEngine.c9_upload_id_collision :
    (SigEngine.upload SigEngine.sampleCollab 1000 (some [1])
        { originals := [], signed := [], audits := [] }).1 =
      .ok "1000" "http://localhost:5000/files/original/1000.pdf" ∧
    (SigEngine.upload SigEngine.sampleCollab 1000 (some [2])
        (SigEngine.upload SigEngine.sampleCollab 1000 (some [1])
          { originals := [], signed := [], audits := [] }).2).1 =
      .ok "1000" "http://localhost:5000/files/original/1000.pdf" ∧
    (SigEngine.upload SigEngine.sampleCollab 1000 (some [2])
        (SigEngine.upload SigEngine.sampleCollab 1000 (some [1])
          { originals := [], signed := [], audits := [] }).2).2.originals =
      [("1000", [2])] := by
  refine ⟨rfl, rfl, rfl⟩
